import Mathlib

/- Verification model of the WebSocket voice bridge in src/main.py
   (class WebSocketVoiceSession and its helpers).

   The development shallowly embeds:
   * the two message vocabularies (inbound browser messages, Azure server
     events, outbound browser notifications) as closed inductive types;
   * the pure per-message dispatch of `_receive_from_browser` (lines
     203-222) and of `_handle_azure_event` (lines 246-306) as total Lean
     functions;
   * Python's standard `base64.b64encode`/`b64decode` (RFC 4648, with
     padding) over byte lists, used at line 280;
   * a small-step interleaving machine for one session: the two relay
     tasks created by `start` (lines 125-126), their suspension points,
     and the orchestration performed by `start` after `asyncio.wait`
     returns (lines 129-160).  Steps are labelled by the component that
     performs them (browser task, azure task, or `start`), and a schedule
     is a list of labels, so both universal properties (over all
     schedules) and concrete interleavings can be stated. -/

namespace Bridge

/-- Inbound browser message, as dispatched on `data.get("type")` in
`_receive_from_browser`.  The audio payload models `data.get("audio")`:
`none` stands for an absent or `null` field. -/
inductive ClientMsg where
  | audio (payload : Option String)
  | interrupt
  | stop
  | other (tag : String)
deriving DecidableEq

/-- Command issued on the upstream (Azure) connection by the browser relay
loop: `connection.input_audio_buffer.append(audio=...)` (line 210) or
`connection.response.cancel()` (line 216). -/
inductive UpstreamCmd where
  | audioAppend (payload : String)
  | responseCancel
deriving DecidableEq

/-- Upstream server event, the tags matched by `_handle_azure_event`
against `ServerEventType`.  `unknown` stands for any tag outside the
enumerated set; `responseAudioDelta` carries the raw binary `event.delta`
as a list of byte values. -/
inductive AzureEvent where
  | sessionUpdated (sessionId : String)
  | speechStarted
  | speechStopped
  | responseCreated
  | responseAudioDelta (delta : List Nat)
  | responseAudioDone
  | responseDone
  | error (message : String)
  | unknown (tag : String)
deriving DecidableEq

/-- Outbound JSON notification sent to the browser over
`websocket.send_json`, one constructor per `"type"` value produced in
src/main.py. -/
inductive Notification where
  | sessionReady (sessionId : String)
  | speechStarted
  | speechStopped
  | responseStarted
  | audio (audioB64 : String)
  | responseAudioDone
  | responseDone
  | error (message : String)
deriving DecidableEq

/-- The standard base64 alphabet, RFC 4648 table 1, as used by Python's
`base64.b64encode`. -/
def b64Alpha : List Char :=
  ['A', 'B', 'C', 'D', 'E', 'F', 'G', 'H', 'I', 'J', 'K', 'L', 'M',
   'N', 'O', 'P', 'Q', 'R', 'S', 'T', 'U', 'V', 'W', 'X', 'Y', 'Z',
   'a', 'b', 'c', 'd', 'e', 'f', 'g', 'h', 'i', 'j', 'k', 'l', 'm',
   'n', 'o', 'p', 'q', 'r', 's', 't', 'u', 'v', 'w', 'x', 'y', 'z',
   '0', '1', '2', '3', '4', '5', '6', '7', '8', '9', '+', '/']

/-- Digit of the base64 alphabet for a 6-bit value. -/
def b64Char (n : Nat) : Char := b64Alpha.getD n '?'

/-- Position of a character in the base64 alphabet. -/
def b64Index (c : Char) : Nat := b64Alpha.indexOf c

/-- Standard base64 encoding with padding of a byte list, modelling
`base64.b64encode` applied to `event.delta` at line 280. -/
def b64encode : List Nat → List Char
  | [] => []
  | [a] => [b64Char (a / 4), b64Char (a % 4 * 16), '=', '=']
  | [a, b] => [b64Char (a / 4), b64Char (a % 4 * 16 + b / 16), b64Char (b % 16 * 4), '=']
  | a :: b :: c :: rest =>
      b64Char (a / 4) :: b64Char (a % 4 * 16 + b / 16) ::
      b64Char (b % 16 * 4 + c / 64) :: b64Char (c % 64) :: b64encode rest

/-- Standard base64 decoding with padding, modelling `base64.b64decode`;
the inverse direction of the round-trip property. -/
def b64decode : List Char → List Nat
  | c1 :: c2 :: c3 :: c4 :: rest =>
      if c3 = '=' then
        [b64Index c1 * 4 + b64Index c2 / 16]
      else if c4 = '=' then
        [b64Index c1 * 4 + b64Index c2 / 16,
         b64Index c2 % 16 * 16 + b64Index c3 / 4]
      else
        (b64Index c1 * 4 + b64Index c2 / 16) ::
        (b64Index c2 % 16 * 16 + b64Index c3 / 4) ::
        (b64Index c3 % 4 * 64 + b64Index c4) ::
        b64decode rest
  | _ => []

/-- Python truthiness of the optional `audio` field, for the guard
`if audio_base64 and self.connection` at line 208: `None` and the empty
string are falsy, every other string is truthy. -/
def pyTruthy : Option String → Bool
  | none => false
  | some s => !(s == "")

/-- Outcome of dispatching one browser message in `_receive_from_browser`:
the upstream command issued (if any) and whether the loop breaks (the
`stop` branch, which also sets `active` to false). -/
structure RecvResult where
  cmd : Option UpstreamCmd
  brk : Bool
deriving DecidableEq

/-- Per-message dispatch of `_receive_from_browser` (lines 203-222) as a
pure function of the message and of whether `self.connection` is set. -/
def receiveStep (connSet : Bool) : ClientMsg → RecvResult
  | .audio p =>
      { cmd := if pyTruthy p && connSet then some (.audioAppend (p.getD "")) else none,
        brk := false }
  | .interrupt =>
      { cmd := if connSet then some .responseCancel else none, brk := false }
  | .stop => { cmd := none, brk := true }
  | .other _ => { cmd := none, brk := false }

/-- Dispatch of `_handle_azure_event` (lines 250-303) as a pure function:
given the current `session_ready` flag and the event, returns the new
flag value and the notification whose send is attempted (none for tags
outside the enumerated set, which fall through the if/elif chain). -/
def handleAzureEvent (ready : Bool) : AzureEvent → Bool × Option Notification
  | .sessionUpdated sid => (true, some (.sessionReady sid))
  | .speechStarted => (ready, some .speechStarted)
  | .speechStopped => (ready, some .speechStopped)
  | .responseCreated => (ready, some .responseStarted)
  | .responseAudioDelta delta => (ready, some (.audio (String.mk (b64encode delta))))
  | .responseAudioDone => (ready, some .responseAudioDone)
  | .responseDone => (ready, some .responseDone)
  | .error msg => (ready, some (.error msg))
  | .unknown _ => (ready, none)

/-- Control point of the browser relay task `_receive_from_browser`:
`loopCheck` is the `while self.active` test, `reading` is suspension in
`await websocket.receive_json()`, `finish` means the coroutine has
returned (normally, after a caught exception, or cancelled). -/
inductive BPc where
  | loopCheck
  | reading
  | finish
deriving DecidableEq

/-- Control point of the azure relay task `_process_azure_events`:
`reading` is suspension in the `async for` over the connection, `finish`
means the coroutine has returned. -/
inductive APc where
  | reading
  | finish
deriving DecidableEq

/-- Control point of `start` from the moment the two tasks exist:
`waiting` inside `asyncio.wait(..., FIRST_COMPLETED)`; `cancelled` after
the cancel-and-await loop over pending tasks; `upstreamReleased` after
the `async with connect(...)` scope closed the Azure connection;
`returned` after the `finally` block ran and `start` returned. -/
inductive SPc where
  | waiting
  | cancelled
  | upstreamReleased
  | returned
deriving DecidableEq

/-- One item arriving on the browser websocket: a decoded message whose
subsequent upstream send either succeeds or raises (`sendFails`), a
`WebSocketDisconnect`, or any other exception out of `receive_json`. -/
inductive BrowserIn where
  | msg (m : ClientMsg) (sendFails : Bool)
  | disconnect
  | readError
deriving DecidableEq

/-- One item arriving from the upstream connection: an event whose
handling may internally raise (`sendFails`, caught inside
`_handle_azure_event`), normal end of the event stream, or an exception
out of the `async for` itself. -/
inductive AzureIn where
  | ev (e : AzureEvent) (sendFails : Bool)
  | streamEnd
  | streamError
deriving DecidableEq

/-- State of one session, from the point where `start` has assigned
`self.connection` (line 119), run `_setup_session`, and created the two
relay tasks (lines 125-126).  `upstreamSent` and `clientSent` record
every send attempted on the upstream and downstream connections, in
order.  `downstreamClosed` records whether the browser websocket was
closed: src/main.py calls `websocket.close()` only in the
missing-credentials path of `websocket_endpoint` (line 743), never
during or after a session, so no step of the machine sets it. -/
structure Sess where
  active : Bool
  ready : Bool
  connSet : Bool
  upstreamClosed : Bool
  downstreamClosed : Bool
  browserPc : BPc
  azurePc : APc
  spc : SPc
  browserIn : List BrowserIn
  azureIn : List AzureIn
  upstreamSent : List UpstreamCmd
  clientSent : List Notification
deriving DecidableEq

/-- Step labels, naming the component that performs the step: `bCheck`
and `bRecv` belong to the browser relay task, `aRecv` to the azure relay
task, and `sCancel`, `sClose`, `sFinal` to the orchestration in `start`. -/
inductive Lbl where
  | bCheck
  | bRecv
  | aRecv
  | sCancel
  | sClose
  | sFinal
deriving DecidableEq

/-- Small-step transition function.  Each step is one scheduler slice: a
task runs from one suspension point to the next, so everything between
two awaits is atomic (cooperative single-threaded asyncio).

`bCheck`: the `while self.active` test (line 199); if it passes the task
suspends in `receive_json`.

`bRecv`: `receive_json` resumes with the next inbound item and the task
runs the whole loop body: the dispatched upstream send (if any) is
initiated before any further check, a raising send or read is caught by
the `except` arms (lines 224-229) which set `active = False` and end the
coroutine, and the `stop` branch sets `active = False` and breaks.

`aRecv`: the `async for` resumes with the next item; the body first
checks `if not self.active: break` (line 237) and only then handles the
event, whose own try/except (lines 250-306) swallows send failures, so
the loop continues; an exception from the stream itself is caught at
lines 242-244 setting `active = False`.

`sCancel`: `asyncio.wait` returns once some task finished; `start`
cancels every pending task and awaits it (lines 135-140); `except
Exception` arms do not catch `CancelledError`, so cancelled tasks end
without further writes.  `sClose`: the `async with` scope exits, closing
the upstream connection.  `sFinal`: the `finally` block sets
`active = False` (line 159) and `start` returns. -/
def step (s : Sess) : Lbl → Option Sess
  | .bCheck =>
      match s.browserPc with
      | .loopCheck =>
          if s.active then some { s with browserPc := .reading }
          else some { s with browserPc := .finish }
      | _ => none
  | .bRecv =>
      match s.browserPc, s.browserIn with
      | .reading, .msg m sendFails :: rest =>
          let r := receiveStep s.connSet m
          let s2 := { s with browserIn := rest,
                             upstreamSent := s.upstreamSent ++ r.cmd.toList }
          if r.cmd.isSome && sendFails then
            some { s2 with active := false, browserPc := .finish }
          else if r.brk then
            some { s2 with active := false, browserPc := .finish }
          else
            some { s2 with browserPc := .loopCheck }
      | .reading, .disconnect :: rest =>
          some { s with browserIn := rest, active := false, browserPc := .finish }
      | .reading, .readError :: rest =>
          some { s with browserIn := rest, active := false, browserPc := .finish }
      | _, _ => none
  | .aRecv =>
      match s.azurePc, s.azureIn with
      | .reading, .ev e _ :: rest =>
          if s.active then
            some { s with azureIn := rest,
                          ready := (handleAzureEvent s.ready e).1,
                          clientSent := s.clientSent ++ (handleAzureEvent s.ready e).2.toList }
          else
            some { s with azureIn := rest, azurePc := .finish }
      | .reading, .streamEnd :: rest =>
          some { s with azureIn := rest, azurePc := .finish }
      | .reading, .streamError :: rest =>
          some { s with azureIn := rest, active := false, azurePc := .finish }
      | _, _ => none
  | .sCancel =>
      match s.spc with
      | .waiting =>
          if s.browserPc = .finish ∨ s.azurePc = .finish then
            some { s with browserPc := .finish, azurePc := .finish, spc := .cancelled }
          else none
      | _ => none
  | .sClose =>
      match s.spc with
      | .cancelled => some { s with upstreamClosed := true, spc := .upstreamReleased }
      | _ => none
  | .sFinal =>
      match s.spc with
      | .upstreamReleased => some { s with active := false, spc := .returned }
      | _ => none

/-- Session state right after `__init__` (active := True, session_ready
:= False, lines 100-101) followed by the connection assignment and task
creation in `start`, parametrised by the inbound streams. -/
def initSess (bIn : List BrowserIn) (aIn : List AzureIn) : Sess :=
  { active := true, ready := false, connSet := true,
    upstreamClosed := false, downstreamClosed := false,
    browserPc := .loopCheck, azurePc := .reading, spc := .waiting,
    browserIn := bIn, azureIn := aIn, upstreamSent := [], clientSent := [] }

/-- Run a schedule: apply the labelled steps in order; `none` if some
label is not enabled in its state. -/
def exec (s : Sess) : List Lbl → Option Sess
  | [] => some s
  | l :: ls =>
      match step s l with
      | none => none
      | some s2 => exec s2 ls

/-- Run a schedule and collect the whole state trace (initial state
first). -/
def execT (s : Sess) : List Lbl → Option (List Sess)
  | [] => some [s]
  | l :: ls =>
      match step s l with
      | none => none
      | some s2 => (execT s2 ls).map (fun ts => s :: ts)

/-- Failures of `start` before the relay tasks exist: the
`connect(...)` call (lines 109-118) or `_setup_session` (line 122)
raising.  Both are caught by `except Exception` in `start`, which
attempts to send an error notification to the browser (lines 151-157). -/
inductive StartFailure where
  | connectError (msg : String)
  | setupError (msg : String)
deriving DecidableEq

/-- Notification whose send `start` attempts when the connect or
configuration phase raises, per the `except Exception` handler at lines
149-157. -/
def startFailureNotice : StartFailure → Option Notification
  | .connectError msg => some (.error msg)
  | .setupError msg => some (.error msg)

/-- Number of adjacent false-to-true changes in a boolean sequence. -/
def upFlips : List Bool → Nat
  | a :: b :: rest => (if !a && b then 1 else 0) + upFlips (b :: rest)
  | _ => 0

/-- Number of adjacent true-to-false changes in a boolean sequence. -/
def downFlips : List Bool → Nat
  | a :: b :: rest => (if a && !b then 1 else 0) + downFlips (b :: rest)
  | _ => 0

/-- Budget of upstream sends the browser task can still perform once
`active` is false: one if it is suspended in `receive_json` (the
in-flight message is forwarded without rechecking `active`), zero
otherwise. -/
def brAllow (s : Sess) : Nat := if s.browserPc = BPc.reading then 1 else 0

/-- Concrete run: the browser sends a single `stop` message. -/
def stopRun : List BrowserIn := [.msg .stop false]

/-- Stop run, initial state. -/
def stopS0 : Sess := initSess stopRun []

/-- Stop run after the loop check: the browser task suspends in
`receive_json`. -/
def stopS1 : Sess := { stopS0 with browserPc := .reading }

/-- Stop run after the `stop` message is processed: `active` cleared,
browser task finished, nothing sent upstream. -/
def stopS2 : Sess := { stopS1 with browserIn := [], active := false, browserPc := .finish }

/-- Stop run after `start` cancelled and awaited the azure task. -/
def stopS3 : Sess := { stopS2 with azurePc := .finish, spc := .cancelled }

/-- Stop run after the `async with` released the upstream connection. -/
def stopS4 : Sess := { stopS3 with upstreamClosed := true, spc := .upstreamReleased }

/-- Stop run after the `finally` block: `start` has returned. -/
def stopS5 : Sess := { stopS4 with spc := .returned }

/-- An upstream error event whose notification send to the browser
raises. -/
def azFailS : Sess := initSess [] [.ev (.error "rate limited") true]

/-- State after the azure loop handled that event: the failure was
swallowed inside `_handle_azure_event` and the loop is back reading. -/
def azFailS2 : Sess := { azFailS with azureIn := [], clientSent := [.error "rate limited"] }

/-- A browser audio message whose upstream forward raises, with the task
suspended in `receive_json`. -/
def brFailS : Sess :=
  { (initSess [.msg (.audio (some "x")) true] []) with browserPc := .reading }

/-- State after the failing forward: the loop-level `except` caught the
exception, deactivated the session and ended the browser task. -/
def brFailS2 : Sess :=
  { brFailS with browserIn := [], upstreamSent := [.audioAppend "x"],
                 active := false, browserPc := .finish }

/-- A session already inactive while the browser task holds an in-flight
audio message. -/
def inactiveS : Sess :=
  { (initSess [.msg (.audio (some "x")) false] []) with
    active := false,
    browserPc := .reading }

/-- State after the in-flight message is still forwarded upstream. -/
def inactiveS2 : Sess :=
  { inactiveS with browserIn := [], upstreamSent := [.audioAppend "x"],
                   browserPc := .loopCheck }

/-- A session whose two relay tasks have both finished, with one
terminal notification already delivered earlier. -/
def doneS : Sess :=
  { (initSess [] []) with
    browserPc := .finish,
    azurePc := .finish,
    clientSent := [.responseDone] }

/-- The same session after `start` ran its cleanup to completion. -/
def doneS2 : Sess :=
  { doneS with active := false, upstreamClosed := true, spc := .returned }

/-- Invariant tying the progress of `start` to the state of the tasks and
connections: past `waiting` both tasks are finished, past `cancelled` the
upstream connection is closed, and the downstream websocket is never
closed by the session. -/
def Inv1 (s : Sess) : Prop :=
  (s.spc ≠ SPc.waiting → s.browserPc = BPc.finish ∧ s.azurePc = APc.finish)
  ∧ ((s.spc = SPc.upstreamReleased ∨ s.spc = SPc.returned) → s.upstreamClosed = true)
  ∧ s.downstreamClosed = false

/-- Every 6-bit value decodes back to itself through the alphabet. -/
theorem b64Index_b64Char : ∀ n : Nat, n < 64 → b64Index (b64Char n) = n := by decide

/-- No alphabet digit is the padding character. -/
theorem b64Char_ne_pad : ∀ n : Nat, n < 64 → b64Char n ≠ '=' := by decide

/-- Decoding inverts encoding on byte lists: the round-trip property of
standard base64. -/
theorem b64_roundtrip : ∀ xs : List Nat, (∀ x ∈ xs, x < 256) →
    b64decode (b64encode xs) = xs
  | [], _ => rfl
  | [a], h => by
      have ha : a < 256 := h a (by simp)
      simp only [b64encode, b64decode]
      rw [if_pos trivial, b64Index_b64Char _ (by omega), b64Index_b64Char _ (by omega)]
      simp only [List.cons.injEq, and_true]
      omega
  | [a, b], h => by
      have ha : a < 256 := h a (by simp)
      have hb : b < 256 := h b (by simp)
      simp only [b64encode, b64decode]
      rw [if_neg (b64Char_ne_pad _ (by omega)), if_pos trivial,
        b64Index_b64Char _ (by omega), b64Index_b64Char _ (by omega),
        b64Index_b64Char _ (by omega)]
      simp only [List.cons.injEq, and_true]
      omega
  | a :: b :: c :: rest, h => by
      have ha : a < 256 := h a (by simp)
      have hb : b < 256 := h b (by simp)
      have hc : c < 256 := h c (by simp)
      have ih := b64_roundtrip rest (fun x hx =>
        h x (List.mem_cons_of_mem _ (List.mem_cons_of_mem _ (List.mem_cons_of_mem _ hx))))
      simp only [b64encode, b64decode]
      rw [if_neg (b64Char_ne_pad _ (by omega)), if_neg (b64Char_ne_pad _ (by omega)),
        b64Index_b64Char _ (by omega), b64Index_b64Char _ (by omega),
        b64Index_b64Char _ (by omega), b64Index_b64Char _ (by omega), ih]
      simp only [List.cons.injEq, and_true]
      refine ⟨by omega, by omega, by omega⟩

/-- A state trace always starts with the state it was run from. -/
theorem execT_head : ∀ (ls : List Lbl) (s : Sess) (ts : List Sess),
    execT s ls = some ts → ts.head? = some s
  | [], s, ts, h => by
      simp only [execT] at h
      injection h with h
      subst h
      rfl
  | l :: ls, s, ts, h => by
      simp only [execT] at h
      cases hstep : step s l with
      | none => exact Option.noConfusion (hstep ▸ h)
      | some s2 =>
          simp only [hstep] at h
          cases hts : execT s2 ls with
          | none => simp [hts] at h
          | some us =>
              simp only [hts] at h
              simp only [Option.map_some'] at h
              injection h with h
              subst h
              rfl

/-- The last state of a trace is the result of running the schedule. -/
theorem execT_getLast : ∀ (ls : List Lbl) (s : Sess) (ts : List Sess),
    execT s ls = some ts → ts.getLast? = exec s ls
  | [], s, ts, h => by
      simp only [execT] at h
      injection h with h
      subst h
      rfl
  | l :: ls, s, ts, h => by
      simp only [execT, exec] at h ⊢
      cases hstep : step s l with
      | none => exact Option.noConfusion (hstep ▸ h)
      | some s2 =>
          simp only [hstep] at h
          cases hts : execT s2 ls with
          | none => simp [hts] at h
          | some us =>
              simp only [hts] at h
              simp only [Option.map_some'] at h
              injection h with h
              subst h
              have hh := execT_head ls s2 us hts
              have hlast := execT_getLast ls s2 us hts
              cases us with
              | nil => exact Option.noConfusion hh
              | cons u0 us' => rw [List.getLast?_cons_cons, hlast]

/-- Every write to the session flags after initialisation is terminal:
whichever component performs a step, `active` is only ever assigned
false and `ready` only ever true. -/
theorem handleAzureEvent_ready (r : Bool) (e : AzureEvent) :
    (handleAzureEvent r e).1 = r ∨ (handleAzureEvent r e).1 = true := by
  cases e <;> simp [handleAzureEvent]

theorem step_flag_terminal (s s2 : Sess) (l : Lbl) (h : step s l = some s2) :
    (s2.active = s.active ∨ s2.active = false)
    ∧ (s2.ready = s.ready ∨ s2.ready = true) := by
  cases l <;> simp only [step] at h <;>
    (repeat' split at h) <;>
    (try exact Option.noConfusion h) <;>
    (injection h with h; subst h) <;>
    (try simp) <;>
    exact handleAzureEvent_ready _ _

/-- A step never resurrects the `active` flag. -/
theorem step_active_mono (s s2 : Sess) (l : Lbl) (h : step s l = some s2)
    (ha : s.active = false) : s2.active = false := by
  rcases (step_flag_terminal s s2 l h).1 with h1 | h1
  · rw [h1, ha]
  · exact h1

/-- The dispatch of one browser message attempts at most one upstream
send. -/
theorem receiveStep_cmd_len (c : Bool) (m : ClientMsg) :
    ((receiveStep c m).cmd).toList.length ≤ 1 := by
  cases m <;> simp only [receiveStep] <;> (repeat' split) <;> simp

/-- Once `active` is false, a step sends nothing to the client and the
only send the machine can still perform is the one in-flight browser
message, accounted by `brAllow`. -/
theorem step_inactive_quiet (s s2 : Sess) (l : Lbl) (h : step s l = some s2)
    (ha : s.active = false) :
    s2.active = false ∧ s2.clientSent = s.clientSent
    ∧ s2.upstreamSent.length + brAllow s2 ≤ s.upstreamSent.length + brAllow s := by
  cases l <;> simp only [step] at h <;>
    (repeat' split at h) <;>
    (try exact Option.noConfusion h) <;>
    (injection h with h; subst h) <;>
    (try (simp_all [brAllow]; done)) <;>
    (simp_all [brAllow]
     exact receiveStep_cmd_len _ _)

/-- Once both relay tasks are finished, no step changes what was sent to
the client, and the tasks stay finished. -/
theorem step_finished_quiet (s s2 : Sess) (l : Lbl) (h : step s l = some s2)
    (hb : s.browserPc = BPc.finish) (haz : s.azurePc = APc.finish) :
    s2.clientSent = s.clientSent ∧ s2.browserPc = BPc.finish
    ∧ s2.azurePc = APc.finish := by
  cases l <;> simp only [step] at h <;>
    (repeat' split at h) <;>
    (try exact Option.noConfusion h) <;>
    (injection h with h; subst h) <;>
    simp_all

/-- The property that a returned session is inactive is preserved by
every step. -/
theorem step_ret_inactive (s s2 : Sess) (l : Lbl) (h : step s l = some s2)
    (hs : s.spc = SPc.returned → s.active = false) :
    s2.spc = SPc.returned → s2.active = false := by
  intro hr
  cases l <;> simp only [step] at h <;>
    (repeat' split at h) <;>
    (try exact Option.noConfusion h) <;>
    (injection h with h; subst h) <;>
    simp_all

/-- The orchestration invariant `Inv1` is preserved by every step. -/
theorem step_inv1 (s s2 : Sess) (l : Lbl) (h : step s l = some s2)
    (hi : Inv1 s) : Inv1 s2 := by
  obtain ⟨h1, h2, h3⟩ := hi
  cases l <;> simp only [step] at h <;>
    (repeat' split at h) <;>
    (try exact Option.noConfusion h) <;>
    (injection h with h; subst h) <;>
    simp_all [Inv1]

/-- Any property preserved by every enabled step is preserved by every
schedule. -/
theorem exec_ind (P : Sess → Prop)
    (hstep : ∀ (s : Sess) (l : Lbl) (s2 : Sess), step s l = some s2 → P s → P s2) :
    ∀ (ls : List Lbl) (s s2 : Sess), exec s ls = some s2 → P s → P s2
  | [], s, s2, h, hp => by
      simp only [exec] at h
      injection h with h
      subst h
      exact hp
  | l :: ls, s, s2, h, hp => by
      simp only [exec] at h
      cases hst : step s l with
      | none => exact Option.noConfusion (hst ▸ h)
      | some sm =>
          simp only [hst] at h
          exact exec_ind P hstep ls sm s2 h (hstep s l sm hst hp)

/-- Once `active` is false: along any continuation of the run, nothing
further is sent to the client and at most one further upstream send
occurs (the browser message whose read was already in flight). -/
theorem exec_inactive_quiet (s : Sess) (ls : List Lbl) (s2 : Sess)
    (h : exec s ls = some s2) (ha : s.active = false) :
    s2.clientSent = s.clientSent
    ∧ s2.upstreamSent.length + brAllow s2 ≤ s.upstreamSent.length + brAllow s := by
  have main := exec_ind
    (fun t => t.active = false ∧ t.clientSent = s.clientSent
      ∧ t.upstreamSent.length + brAllow t ≤ s.upstreamSent.length + brAllow s)
    (by
      intro u l u2 hst hu
      obtain ⟨hq1, hq2, hq3⟩ := step_inactive_quiet u u2 l hst hu.1
      exact ⟨hq1, hq2.trans hu.2.1, hq3.trans hu.2.2⟩)
    ls s s2 h ⟨ha, rfl, le_refl _⟩
  exact ⟨main.2.1, main.2.2⟩

/-- Once both relay tasks are finished, no continuation of the run sends
anything further to the client. -/
theorem exec_finished_quiet (s : Sess) (ls : List Lbl) (s2 : Sess)
    (h : exec s ls = some s2) (hb : s.browserPc = BPc.finish)
    (haz : s.azurePc = APc.finish) : s2.clientSent = s.clientSent := by
  have main := exec_ind
    (fun t => t.clientSent = s.clientSent ∧ t.browserPc = BPc.finish
      ∧ t.azurePc = APc.finish)
    (by
      intro u l u2 hst hu
      obtain ⟨hq1, hq2, hq3⟩ := step_finished_quiet u u2 l hst hu.2.1 hu.2.2
      exact ⟨hq1.trans hu.1, hq2, hq3⟩)
    ls s s2 h ⟨rfl, hb, haz⟩
  exact main.1

/-- The orchestration invariant holds in every state reachable from the
initial session state. -/
theorem exec_inv1 (bIn : List BrowserIn) (aIn : List AzureIn) (ls : List Lbl)
    (s2 : Sess) (h : exec (initSess bIn aIn) ls = some s2) : Inv1 s2 := by
  refine exec_ind Inv1 (fun u l u2 hst hu => step_inv1 u u2 l hst hu) ls _ s2 h ?_
  refine ⟨fun hw => absurd rfl hw, fun hw => ?_, rfl⟩
  rcases hw with hw | hw <;> exact SPc.noConfusion hw

/-- In any state reachable from the initial session state, a returned
session is inactive. -/
theorem exec_ret_inactive (bIn : List BrowserIn) (aIn : List AzureIn)
    (ls : List Lbl) (s2 : Sess) (h : exec (initSess bIn aIn) ls = some s2)
    (hr : s2.spc = SPc.returned) : s2.active = false := by
  refine exec_ind (fun t => t.spc = SPc.returned → t.active = false)
    (fun u l u2 hst hu => step_ret_inactive u u2 l hst hu) ls _ s2 h ?_ hr
  intro hw
  exact SPc.noConfusion hw

/-- Along any state trace, the `active` flag never flips back from false
to true. -/
theorem execT_upFlips : ∀ (ls : List Lbl) (s : Sess) (ts : List Sess),
    execT s ls = some ts → upFlips (ts.map Sess.active) = 0
  | [], s, ts, h => by
      simp only [execT] at h
      injection h with h
      subst h
      rfl
  | l :: ls, s, ts, h => by
      simp only [execT] at h
      cases hstep : step s l with
      | none => exact Option.noConfusion (hstep ▸ h)
      | some s2 =>
          simp only [hstep] at h
          cases hts : execT s2 ls with
          | none => simp [hts] at h
          | some us =>
              simp only [hts, Option.map_some'] at h
              injection h with h
              subst h
              have hh := execT_head ls s2 us hts
              have ihh := execT_upFlips ls s2 us hts
              cases us with
              | nil => exact Option.noConfusion hh
              | cons u0 us' =>
                  have hu0 : u0 = s2 := by
                    injection hh with hh
                  subst hu0
                  simp only [List.map_cons, upFlips] at ihh ⊢
                  rcases (step_flag_terminal s u0 l hstep).1 with h1 | h1
                  · simpa [h1] using ihh
                  · simpa [h1] using ihh

/-- A boolean sequence that starts false and never flips up stays false,
so it has no down flip either. -/
theorem allFalse_downFlips : ∀ (rest : List Bool),
    upFlips (false :: rest) = 0 → downFlips (false :: rest) = 0
  | [], _ => rfl
  | b :: rest, h => by
      cases b with
      | true => simp [upFlips] at h
      | false =>
          have h2 : upFlips (false :: rest) = 0 := by
            simpa [upFlips] using h
          have := allFalse_downFlips rest h2
          simpa [downFlips] using this

/-- A boolean sequence that starts true, ends false and never flips up
flips down exactly once. -/
theorem mono_downFlips_one : ∀ (rest : List Bool),
    (true :: rest).getLast? = some false → upFlips (true :: rest) = 0 →
    downFlips (true :: rest) = 1
  | [], hlast, _ => by simp at hlast
  | b :: rest, hlast, hup => by
      cases b with
      | true =>
          have hlast2 : (true :: rest).getLast? = some false := by
            rw [List.getLast?_cons_cons] at hlast
            exact hlast
          have hup2 : upFlips (true :: rest) = 0 := by
            simpa [upFlips] using hup
          have := mono_downFlips_one rest hlast2 hup2
          simpa [downFlips] using this
      | false =>
          have hup2 : upFlips (false :: rest) = 0 := by
            simpa [upFlips] using hup
          have hdown := allFalse_downFlips rest hup2
          simp [downFlips, hdown]

/-- Mapping commutes with taking the last element of a list. -/
theorem getLast_map_opt (f : Sess → Bool) : ∀ (ts : List Sess),
    (ts.map f).getLast? = ts.getLast?.map f
  | [] => rfl
  | [t] => rfl
  | t0 :: t1 :: ts => by
      rw [List.map_cons, List.map_cons, List.getLast?_cons_cons,
        List.getLast?_cons_cons, ← List.map_cons, getLast_map_opt f (t1 :: ts)]

/-- C2 (confirmed): `_handle_azure_event` translates every upstream event
to exactly the specified browser notification: session-updated sets the
`session_ready` flag to true and sends `session_ready` with the session
id; speech started/stopped, response-created, the audio delta (carrying
the base64 encoding of the binary delta), the `response_audio_done` /
`response_done` family and the error event map one-to-one; an event with
an unrecognised tag produces no notification, and the dispatch is a
total function, so it raises nothing. -/
theorem C2_event_translation (ready : Bool) (sid msg tag : String)
    (delta : List Nat) :
    handleAzureEvent ready (.sessionUpdated sid) = (true, some (.sessionReady sid))
    ∧ handleAzureEvent ready .speechStarted = (ready, some .speechStarted)
    ∧ handleAzureEvent ready .speechStopped = (ready, some .speechStopped)
    ∧ handleAzureEvent ready .responseCreated = (ready, some .responseStarted)
    ∧ handleAzureEvent ready (.responseAudioDelta delta)
        = (ready, some (.audio (String.mk (b64encode delta))))
    ∧ handleAzureEvent ready .responseAudioDone = (ready, some .responseAudioDone)
    ∧ handleAzureEvent ready .responseDone = (ready, some .responseDone)
    ∧ handleAzureEvent ready (.error msg) = (ready, some (.error msg))
    ∧ handleAzureEvent ready (.unknown tag) = (ready, none) :=
  ⟨rfl, rfl, rfl, rfl, rfl, rfl, rfl, rfl, rfl⟩

/-- C3 (confirmed): the per-message dispatch of `_receive_from_browser`:
an `audio` message with a non-empty payload, with the connection set,
issues exactly one audio-append command carrying the payload unchanged;
`interrupt` issues exactly one response-cancel command; `stop` issues no
command, sets `active` to false and ends the receive loop; an
unrecognised tag issues no command, raises nothing, and the loop goes on
to the next message (the machine conjuncts state the loop behaviour). -/
theorem C3_client_translation (p tag : String) (hp : p ≠ "") (c : Bool) :
    receiveStep true (.audio (some p)) = ⟨some (.audioAppend p), false⟩
    ∧ receiveStep true .interrupt = ⟨some .responseCancel, false⟩
    ∧ receiveStep c .stop = ⟨none, true⟩
    ∧ receiveStep c (.other tag) = ⟨none, false⟩
    ∧ (∀ (s s2 : Sess) (rest : List BrowserIn), s.browserPc = BPc.reading →
        s.browserIn = .msg .stop false :: rest → step s .bRecv = some s2 →
        s2.active = false ∧ s2.browserPc = BPc.finish
          ∧ s2.upstreamSent = s.upstreamSent)
    ∧ (∀ (s s2 : Sess) (rest : List BrowserIn), s.browserPc = BPc.reading →
        s.browserIn = .msg (.other tag) false :: rest → step s .bRecv = some s2 →
        s2.active = s.active ∧ s2.browserPc = BPc.loopCheck
          ∧ s2.upstreamSent = s.upstreamSent) := by
  refine ⟨?_, rfl, rfl, rfl, ?_, ?_⟩
  · simp [receiveStep, pyTruthy, hp]
  · intro s s2 rest hpc hin h
    simp [step, hpc, hin, receiveStep] at h
    subst h
    simp
  · intro s s2 rest hpc hin h
    simp [step, hpc, hin, receiveStep] at h
    subst h
    simp

/-- C3 witness: concrete instances of the translation, and the concrete
stop transition of the machine. -/
theorem C3_witness :
    receiveStep true (.audio (some "x")) = ⟨some (.audioAppend "x"), false⟩
    ∧ (stopS2.active = false ∧ stopS2.browserPc = BPc.finish
        ∧ stopS2.upstreamSent = stopS1.upstreamSent) :=
  ⟨(C3_client_translation "x" "zz" (by decide) true).1,
   (C3_client_translation "x" "zz" (by decide) true).2.2.2.2.1 stopS1 stopS2 []
     rfl rfl (by decide)⟩

/-- C4 (confirmed): the audio notification built for an upstream
audio-delta event carries exactly the standard base64 encoding of the
binary payload, and standard base64 decoding of that string recovers the
original bytes, for every byte list including the empty one. -/
theorem C4_base64_roundtrip (ready : Bool) (bytes : List Nat)
    (hb : ∀ x ∈ bytes, x < 256) :
    handleAzureEvent ready (.responseAudioDelta bytes)
      = (ready, some (.audio (String.mk (b64encode bytes))))
    ∧ b64decode (b64encode bytes) = bytes :=
  ⟨rfl, b64_roundtrip bytes hb⟩

/-- C4 witness: the round trip evaluated on the empty buffer and on the
bytes of "Man" (whose standard encoding is "TWFu"). -/
theorem C4_witness :
    b64decode (b64encode []) = []
    ∧ b64encode [77, 97, 110] = ['T', 'W', 'F', 'u']
    ∧ b64decode (b64encode [77, 97, 110]) = [77, 97, 110] :=
  ⟨(C4_base64_roundtrip true [] (by decide)).2, by decide,
   (C4_base64_roundtrip true [77, 97, 110] (by decide)).2⟩

/-- C10 (confirmed): an `audio` message whose payload is absent, null
(both modelled by `none`) or the empty string issues no upstream
command, raises nothing, and the receive loop continues with the next
message; the append command is issued exactly when the payload is
truthy and the connection handle is set. -/
theorem C10_empty_audio (c : Bool) (p : String) (hp : p ≠ "") :
    receiveStep c (.audio none) = ⟨none, false⟩
    ∧ receiveStep c (.audio (some "")) = ⟨none, false⟩
    ∧ receiveStep false (.audio (some p)) = ⟨none, false⟩
    ∧ receiveStep true (.audio (some p)) = ⟨some (.audioAppend p), false⟩
    ∧ (∀ q : Option String, (receiveStep c (.audio q)).cmd ≠ none →
        pyTruthy q = true ∧ c = true)
    ∧ (∀ (s s2 : Sess) (q : Option String) (rest : List BrowserIn),
        s.browserPc = BPc.reading → pyTruthy q = false →
        s.browserIn = .msg (.audio q) false :: rest → step s .bRecv = some s2 →
        s2.active = s.active ∧ s2.browserPc = BPc.loopCheck
          ∧ s2.upstreamSent = s.upstreamSent) := by
  refine ⟨?_, ?_, ?_, ?_, ?_, ?_⟩
  · cases c <;> simp [receiveStep, pyTruthy]
  · cases c <;> simp [receiveStep, pyTruthy]
  · simp [receiveStep, pyTruthy]
  · simp [receiveStep, pyTruthy, hp]
  · intro q hq
    by_cases h1 : pyTruthy q <;> by_cases h2 : c = true <;>
      simp [receiveStep, h1, h2] at hq ⊢
  · intro s s2 q rest hpc hq hin h
    simp [step, hpc, hin, receiveStep, hq] at h
    subst h
    simp

/-- C10 witness: concrete empty-payload instances. -/
theorem C10_witness :
    receiveStep true (.audio none) = ⟨none, false⟩
    ∧ receiveStep true (.audio (some "")) = ⟨none, false⟩
    ∧ receiveStep false (.audio (some "x")) = ⟨none, false⟩
    ∧ receiveStep true (.audio (some "x")) = ⟨some (.audioAppend "x"), false⟩ :=
  ⟨(C10_empty_audio true "x" (by decide)).1,
   (C10_empty_audio true "x" (by decide)).2.1,
   (C10_empty_audio true "x" (by decide)).2.2.1,
   (C10_empty_audio true "x" (by decide)).2.2.2.1⟩

/-- C5 counterexample: a single failing upstream send, for the message
`audio "x"`, terminates the browser-to-upstream relay loop by itself —
the loop-level `except` (lines 227-229) catches it, sets `active` to
false and ends the task, leaving the next message (`interrupt`) forever
unprocessed.  This refutes the claim that in both relay loops a failure
to send one single message does not terminate the loop. -/
theorem C5_counterexample :
    (exec (initSess [.msg (.audio (some "x")) true, .msg .interrupt false] [])
        [.bCheck, .bRecv]).map
      (fun s => (s.browserPc, s.active, s.browserIn, s.upstreamSent))
    = some (BPc.finish, false, [.msg .interrupt false], [.audioAppend "x"]) := by
  decide

/-- C5 amended (proved): per-message failure isolation holds only in the
upstream-to-browser loop: a failure inside the handling of one azure
event (its send included) is caught inside `_handle_azure_event` and the
loop keeps reading with the session still active; in the
browser-to-upstream loop a failing send of one translated message ends
the loop and deactivates the session. -/
theorem C5_per_message_isolation :
    (∀ (s s2 : Sess) (e : AzureEvent) (sf : Bool) (rest : List AzureIn),
      s.azurePc = APc.reading → s.active = true → s.azureIn = .ev e sf :: rest →
      step s .aRecv = some s2 → s2.azurePc = APc.reading ∧ s2.active = true)
    ∧ (∀ (s s2 : Sess) (p : String) (rest : List BrowserIn),
      s.browserPc = BPc.reading → s.connSet = true → p ≠ "" →
      s.browserIn = .msg (.audio (some p)) true :: rest →
      step s .bRecv = some s2 → s2.browserPc = BPc.finish ∧ s2.active = false) := by
  constructor
  · intro s s2 e sf rest hpc hact hin h
    simp [step, hpc, hin, hact] at h
    subst h
    simp [hact]
  · intro s s2 p rest hpc hconn hp hin h
    simp [step, hpc, hin, receiveStep, pyTruthy, hp, hconn] at h
    subst h
    simp

/-- C5 witness: the azure loop survives a failing send of the error
notification; the browser loop dies on a failing forward of one audio
message. -/
theorem C5_witness :
    (azFailS2.azurePc = APc.reading ∧ azFailS2.active = true)
    ∧ (brFailS2.browserPc = BPc.finish ∧ brFailS2.active = false) :=
  ⟨C5_per_message_isolation.1 azFailS azFailS2 (.error "rate limited") true []
     rfl rfl rfl (by decide),
   C5_per_message_isolation.2 brFailS brFailS2 "x" []
     rfl rfl (by decide) rfl (by decide)⟩

/-- C6 counterexample: an interleaving in which a message is sent on the
upstream connection strictly after `active` became false.  The browser
task suspends in `receive_json` with an audio message in flight; the
azure stream then errors, setting `active` to false; the browser task
resumes before `start` can cancel it and forwards the message without
rechecking `active` (line 210 follows line 201 with no check between). -/
theorem C6_counterexample :
    ((exec (initSess [.msg (.audio (some "x")) false] [.streamError])
        [.bCheck, .aRecv]).map (fun s => (s.active, s.upstreamSent))
      = some (false, []))
    ∧ ((exec (initSess [.msg (.audio (some "x")) false] [.streamError])
        [.bCheck, .aRecv, .bRecv]).map (fun s => (s.active, s.upstreamSent))
      = some (false, [.audioAppend "x"])) := by
  decide

/-- C6 amended (proved): once `active` is false, nothing further is ever
sent to the client (the azure loop rechecks `active` between reading and
handling), and at most one further message is sent upstream — the single
browser message whose read was already in flight when the flag
flipped. -/
theorem C6_after_inactive (s : Sess) (ls : List Lbl) (s2 : Sess)
    (h : exec s ls = some s2) (ha : s.active = false) :
    s2.clientSent = s.clientSent
    ∧ s2.upstreamSent.length ≤ s.upstreamSent.length + 1 := by
  obtain ⟨h1, h2⟩ := exec_inactive_quiet s ls s2 h ha
  refine ⟨h1, ?_⟩
  have hb : brAllow s ≤ 1 := by unfold brAllow; split <;> omega
  omega

/-- C6 witness: from an inactive state with an in-flight audio message,
the continuation sends nothing to the client and at most one more
upstream command. -/
theorem C6_witness :
    inactiveS2.clientSent = inactiveS.clientSent
    ∧ inactiveS2.upstreamSent.length ≤ inactiveS.upstreamSent.length + 1 :=
  C6_after_inactive inactiveS [.bRecv] inactiveS2 (by decide) rfl

/-- C7 counterexample: both relay tasks do assign the shared flags.
`bRecv` — a browser-task step — processes `stop` and writes `active`
from true to false (line 221 of src/main.py); `aRecv` — an azure-task
step — processes session-updated and writes `session_ready` from false
to true (line 253).  This refutes the claim that the two relay tasks
only read `active` and `session_ready` and never assign them. -/
theorem C7_counterexample :
    (stopS1.active = true
      ∧ (step stopS1 .bRecv).map Sess.active = some false)
    ∧ ((initSess [] [.ev (.sessionUpdated "sess-42") false]).ready = false
      ∧ (step (initSess [] [.ev (.sessionUpdated "sess-42") false]) .aRecv).map
          Sess.ready = some true) := by
  decide

/-- C7 amended (proved): `start`, the browser relay loop and the azure
relay loop all write the flags, but every write after initialisation is
to a terminal value — `active` is only ever assigned false and
`session_ready` only ever true — so the single-assignment-direction
property behind the claim (no toggling back, hence no read-modify-write
race) does hold for every step of every component. -/
theorem C7_terminal_writes (s s2 : Sess) (l : Lbl) (h : step s l = some s2) :
    (s2.active = s.active ∨ s2.active = false)
    ∧ (s2.ready = s.ready ∨ s2.ready = true) :=
  step_flag_terminal s s2 l h

/-- C7 witness: a concrete enabled step, evaluated. -/
theorem C7_witness :
    (stopS1.active = stopS0.active ∨ stopS1.active = false)
    ∧ (stopS1.ready = stopS0.ready ∨ stopS1.ready = true) :=
  C7_terminal_writes stopS0 stopS1 .bCheck (by decide)

/-- C8 (confirmed): the `active` flag starts true at session creation
(`__init__`, line 101); along every schedule, it never flips back from
false to true; and on every run in which `start` has returned, it flips
from true to false exactly once over the whole state trace. -/
theorem C8_active_exactly_once (bIn : List BrowserIn) (aIn : List AzureIn)
    (ls : List Lbl) (ts : List Sess) (s2 : Sess)
    (hT : execT (initSess bIn aIn) ls = some ts)
    (hE : exec (initSess bIn aIn) ls = some s2)
    (hret : s2.spc = SPc.returned) :
    (initSess bIn aIn).active = true
    ∧ upFlips (ts.map Sess.active) = 0
    ∧ downFlips (ts.map Sess.active) = 1 := by
  refine ⟨rfl, execT_upFlips ls _ ts hT, ?_⟩
  have hhead : ts.head? = some (initSess bIn aIn) := execT_head ls _ ts hT
  have hlast : ts.getLast? = some s2 := by
    rw [execT_getLast ls _ ts hT, hE]
  have hfa : s2.active = false := exec_ret_inactive bIn aIn ls s2 hE hret
  have hup := execT_upFlips ls _ ts hT
  have hl2 : (ts.map Sess.active).getLast? = some false := by
    rw [getLast_map_opt Sess.active ts, hlast, Option.map_some', hfa]
  cases ts with
  | nil => exact Option.noConfusion hhead
  | cons t0 ts' =>
      have ht0 : t0 = initSess bIn aIn := by
        injection hhead with hh
      subst ht0
      rw [List.map_cons] at hl2 hup ⊢
      exact mono_downFlips_one (ts'.map Sess.active) hl2 hup

/-- C8 witness: the stop run, whose trace flips `active` down exactly
once and never up. -/
theorem C8_witness :
    stopS0.active = true
    ∧ upFlips ([stopS0, stopS1, stopS2, stopS3, stopS4, stopS5].map Sess.active) = 0
    ∧ downFlips ([stopS0, stopS1, stopS2, stopS3, stopS4, stopS5].map Sess.active) = 1 :=
  C8_active_exactly_once stopRun [] [.bCheck, .bRecv, .sCancel, .sClose, .sFinal]
    [stopS0, stopS1, stopS2, stopS3, stopS4, stopS5] stopS5
    (by decide) (by decide) (by decide)

/-- C1 counterexample: a completed run — the browser disconnects, the
race is resolved, `start` cancels and awaits the azure task, the `async
with` releases the upstream connection and `start` returns — in which
the downstream connection handle was never released: src/main.py closes
the browser websocket only in the missing-credentials path of
`websocket_endpoint`, never on a session's exit path, so "both
connection handles are released before return" fails for the downstream
handle. -/
theorem C1_counterexample :
    (exec (initSess [.disconnect] []) [.bCheck, .bRecv, .sCancel, .sClose, .sFinal]).map
      (fun s => (s.spc, s.upstreamClosed, s.downstreamClosed))
    = some (SPc.returned, true, false) := by
  decide

/-- C1 amended (proved): when `start` returns after the termination
race, the still-pending task has been cancelled and awaited (both relay
tasks are finished) and the upstream connection handle has been
released; the downstream websocket handle, however, is not closed by
`start` — the serving layer closes it only after the endpoint
returns. -/
theorem C1_cancel_and_release (bIn : List BrowserIn) (aIn : List AzureIn)
    (ls : List Lbl) (s2 : Sess) (h : exec (initSess bIn aIn) ls = some s2)
    (hret : s2.spc = SPc.returned) :
    s2.browserPc = BPc.finish ∧ s2.azurePc = APc.finish
    ∧ s2.upstreamClosed = true ∧ s2.downstreamClosed = false := by
  obtain ⟨h1, h2, h3⟩ := exec_inv1 bIn aIn ls s2 h
  obtain ⟨hb, ha⟩ := h1 (by simp [hret])
  exact ⟨hb, ha, h2 (Or.inr hret), h3⟩

/-- C1 witness: the stop run evaluated at its returned state. -/
theorem C1_witness :
    stopS5.browserPc = BPc.finish ∧ stopS5.azurePc = APc.finish
    ∧ stopS5.upstreamClosed = true ∧ stopS5.downstreamClosed = false :=
  C1_cancel_and_release stopRun [] [.bCheck, .bRecv, .sCancel, .sClose, .sFinal]
    stopS5 (by decide) (by decide)

/-- C9 counterexample: a session-ending path on which the client —
whose connection is healthy throughout — receives neither a
`response_done`-family notification nor an `error` notification before
the connection is closed: the browser sends `stop`, both loops end, and
`start` runs to completion having sent nothing (both relay tasks catch
their own exceptions, so `task.exception()` is never set and the
error-reporting branch of `start` is unreachable from the race). -/
theorem C9_counterexample :
    (exec (initSess [.msg .stop false] []) [.bCheck, .bRecv, .sCancel, .sClose, .sFinal]).map
      (fun s => (s.spc, s.clientSent)) = some (SPc.returned, []) := by
  decide

/-- C9 amended (proved): an error notification send is attempted exactly
when the orchestration itself raises — upstream connect failure or
session-configuration failure, the only exceptions that reach the
`except` handler of `start` — and once both relay tasks have finished,
the remainder of the run sends nothing further to the client, so a stop
or a relay failure swallowed inside a task ends the session with no
terminal or error notification. -/
theorem C9_error_reporting :
    (∀ msg : String,
      startFailureNotice (.connectError msg) = some (.error msg)
      ∧ startFailureNotice (.setupError msg) = some (.error msg))
    ∧ (∀ (s : Sess) (ls : List Lbl) (s2 : Sess), s.browserPc = BPc.finish →
        s.azurePc = APc.finish → exec s ls = some s2 →
        s2.clientSent = s.clientSent) :=
  ⟨fun _ => ⟨rfl, rfl⟩,
   fun s ls s2 hb ha h => exec_finished_quiet s ls s2 h hb ha⟩

/-- C9 witness: the connect-failure notice evaluated, and a concrete
post-race run that leaves the client transcript untouched. -/
theorem C9_witness :
    startFailureNotice (StartFailure.connectError "boom")
      = some (Notification.error "boom")
    ∧ doneS2.clientSent = doneS.clientSent :=
  ⟨(C9_error_reporting.1 "boom").1,
   C9_error_reporting.2 doneS [.sCancel, .sClose, .sFinal] doneS2 rfl rfl (by decide)⟩

end Bridge
